import Mathlib

/-!
Verification development for the Twilio / n8n WebSocket bridge (`server.js`).

The bridge accepts Twilio Media Stream frames over raw WebSocket, relays them
to an n8n backend (persistent WS or HTTP webhook fallback), fans caller
traffic out to inbound n8n observer connections, and routes backend control
messages back to the owning Twilio connection via a pair of registry maps.

The embedding below is a shallow model of `server.js`:
  * parsed JSON values are modelled by the `Json` type (objects keep their
    key insertion order, as JavaScript objects do);
  * the two registry `Map`s and the observer `Set` are association lists with
    JavaScript `Map` semantics (`set` overwrites in place, `get` compares
    keys with SameValueZero: primitive keys by value, object keys by
    identity — two separately parsed objects are never identical, so the
    model makes object keys match nothing);
  * network effects (socket sends, HTTP posts, log lines) are reified as an
    explicit effect list;
  * `async` failure (a rejected `axios.post`, a thrown `TypeError`) is
    modelled with an explicit `Option Thrown` error component, and the
    `try`/`catch` in the `ws.on message` handler is modelled by the wrapper
    `onMessage` that converts the error component into a warning log.
-/

set_option autoImplicit false

namespace Bridge

/-- WebSocket readyState constant `WebSocket.OPEN` from the `ws` library. -/
def WS_OPEN : Nat := 1

/-- Parsed JSON values (the fragment exercised by the bridge: no arrays are
needed by any frame the spec or the handlers inspect).  Object fields keep
insertion order, like JavaScript objects. -/
inductive Json where
  | null
  | bool (b : Bool)
  | str (s : String)
  | num (n : Int)
  | obj (fields : List (String × Json))

/-- Field lookup on a JSON object; member access on any non-object value
yields JavaScript `undefined`, modelled as `none`.  (Member access on `null`
throws in JavaScript; the handlers model that case separately, before any
`getField` is evaluated.) -/
def lookupField : List (String × Json) → String → Option Json
  | [], _ => none
  | (k, v) :: rest, key => if k = key then some v else lookupField rest key

/-- `frame.key` member access, `undefined` as `none`. -/
def getField : Json → String → Option Json
  | Json.obj fs, key => lookupField fs key
  | _, _ => none

/-- JavaScript truthiness of a JSON value. -/
def jsTruthy : Json → Bool
  | Json.null => false
  | Json.bool b => b
  | Json.str s => !(s = "")
  | Json.num n => !(n = 0)
  | Json.obj _ => true

/-- JavaScript `a || b` on possibly-undefined values (`none` = `undefined`):
the first operand if it is defined and truthy, otherwise the second. -/
def jsOr (a b : Option Json) : Option Json :=
  match a with
  | some v => if jsTruthy v then some v else b
  | none => b

/-- Key comparison of JavaScript `Map` lookups (SameValueZero): primitive
values compare structurally, object keys compare by identity.  Keys stored
and looked up by the bridge come from distinct `JSON.parse` results, so two
object keys are never the same object; the model therefore makes object keys
match nothing. -/
def keyEq : Json → Json → Bool
  | Json.null, Json.null => true
  | Json.bool a, Json.bool b => a == b
  | Json.str a, Json.str b => a == b
  | Json.num a, Json.num b => a == b
  | _, _ => false

/-- A JSON value is primitive (not an object). -/
def isPrim : Json → Bool
  | Json.obj _ => false
  | _ => true

/-- `Map.get`: first entry whose stored key matches the query. -/
def alistGet {κ α : Type} (eq : κ → κ → Bool) : List (κ × α) → κ → Option α
  | [], _ => none
  | (k, v) :: rest, key => if eq k key then some v else alistGet eq rest key

/-- `Map.set`: overwrite the matching entry in place, else append. -/
def alistSet {κ α : Type} (eq : κ → κ → Bool) : List (κ × α) → κ → α → List (κ × α)
  | [], key, v => [(key, v)]
  | (k, w) :: rest, key, v =>
      if eq k key then (k, v) :: rest else (k, w) :: alistSet eq rest key v

/-- `Map.delete`: drop the matching entry. -/
def alistDel {κ α : Type} (eq : κ → κ → Bool) : List (κ × α) → κ → List (κ × α)
  | [], _ => []
  | (k, v) :: rest, key =>
      if eq k key then alistDel eq rest key else (k, v) :: alistDel eq rest key

/-- Nat key comparison for the `twilioWsToStreamSid` map (connections are
identified by numeric ids in the model). -/
def natKeyEq (a b : Nat) : Bool := a == b

/-- Serialization: JSON string escaping of a single character, as
`JSON.stringify` performs it. -/
def escapeChar (c : Char) : String :=
  if c = Char.ofNat 34 then "\\\""
  else if c = '\\' then "\\\\"
  else if c = Char.ofNat 8 then "\\b"
  else if c = Char.ofNat 12 then "\\f"
  else if c = '\n' then "\\n"
  else if c = '\r' then "\\r"
  else if c = '\t' then "\\t"
  else if c.toNat < 32 then
    let hex : Nat → String := fun n =>
      String.singleton (if n < 10 then Char.ofNat (48 + n) else Char.ofNat (87 + n))
    "\\u00" ++ hex (c.toNat / 16) ++ hex (c.toNat % 16)
  else String.singleton c

/-- JSON string escaping, as `JSON.stringify` performs it. -/
def escapeString (s : String) : String :=
  String.join (s.data.map escapeChar)

/-- A quoted JSON string literal. -/
def jsonQuote (s : String) : String := "\"" ++ escapeString s ++ "\""

mutual

/-- `JSON.stringify` on parsed JSON values.  Object fields are emitted in
insertion order. -/
def stringify : Json → String
  | Json.null => "null"
  | Json.bool b => if b then "true" else "false"
  | Json.str s => jsonQuote s
  | Json.num n => toString n
  | Json.obj fs => "\x7b" ++ stringifyFields fs ++ "\x7d"

/-- Comma-separated `"key":value` pairs of an object body. -/
def stringifyFields : List (String × Json) → String
  | [] => ""
  | [(k, v)] => jsonQuote k ++ ":" ++ stringify v
  | (k, v) :: rest => jsonQuote k ++ ":" ++ stringify v ++ "," ++ stringifyFields rest

end

/-- Build a JavaScript object literal whose field values may be `undefined`
(`none`); `JSON.stringify` drops `undefined`-valued keys, which the model
performs at construction time since the object is only ever stringified. -/
def buildObj (fields : List (String × Option Json)) : Json :=
  Json.obj (fields.filterMap (fun kv => kv.2.map (fun v => (kv.1, v))))

/-- `key: value` assignment into an object-literal field list that may hold
`undefined` values: overwrite in place, else append (JavaScript object
spread semantics for `\x7b source, type, ...frame \x7d`). -/
def objSetOpt : List (String × Option Json) → String → Option Json → List (String × Option Json)
  | [], key, v => [(key, v)]
  | (k, w) :: rest, key, v =>
      if k = key then (k, v) :: rest else (k, w) :: objSetOpt rest key v

/-- Object spread `... frame` over a base field list.  Spreading a
non-object primitive contributes no string-keyed fields. -/
def spreadFields (base : List (String × Option Json)) : Json → List (String × Option Json)
  | Json.obj fs => fs.foldl (fun acc kv => objSetOpt acc kv.1 (some kv.2)) base
  | _ => base

/-! ## Delivery world and effects -/

/-- The environment-and-connection state the delivery code reads:
`outboundN8nWs` (the module-level persistent socket reference), the
readyState of every socket, the `N8N_WEBHOOK_URL` configuration (empty
string = unset, as in the source), whether an `axios.post` resolves, and the
delays of the reconnect timers scheduled so far. -/
structure World where
  outboundN8nWs : Option Nat
  readyState : Nat → Nat
  webhookUrl : String
  httpOk : Bool
  reconnectDelays : List Nat

/-- An exception thrown inside a handler: a rejected `axios.post` awaited by
`forwardToN8n`, or a `TypeError` from member access on `null`. -/
inductive Thrown where
  | httpError
  | typeError
deriving DecidableEq

/-- The channel `forwardToN8n` reports: `'ws'` or `'http'` (`none` = `null`,
no channel configured). -/
inductive Channel where
  | ws
  | http
deriving DecidableEq

/-- Observable network and log effects, in program order. -/
inductive Effect where
  | persistentSend (sock : Nat) (payload : String)
  | httpPost (url : String) (payload : String) (timeoutMs : Nat)
  | observerSend (sock : Nat) (payload : String)
  | callerSend (sock : Nat) (payload : String)
  | logWarn (tag : String)
deriving DecidableEq

/-- The webhook fallback half of `forwardToN8n` (lines 153-160): if
`N8N_WEBHOOK_URL` is configured, issue one `axios.post` with a 10000 ms
timeout and return `'http'`; a rejected post is a thrown error.  Otherwise
return `null` with no I/O. -/
def forwardHttpFallback (w : World) (payload : String) :
    List Effect × Except Thrown (Option Channel) :=
  if w.webhookUrl ≠ "" then
    ([Effect.httpPost w.webhookUrl payload 10000],
      if w.httpOk then Except.ok (some Channel.http) else Except.error Thrown.httpError)
  else ([], Except.ok none)

/-- `forwardToN8n` (lines 147-162): prefer the outbound WS if the reference
exists and the socket is open, else fall back to the webhook. -/
def forwardToN8n (w : World) (payload : String) :
    List Effect × Except Thrown (Option Channel) :=
  match w.outboundN8nWs with
  | some s =>
      if w.readyState s = WS_OPEN then
        ([Effect.persistentSend s payload], Except.ok (some Channel.ws))
      else forwardHttpFallback w payload
  | none => forwardHttpFallback w payload

/-- `broadcastToInboundN8n` (lines 216-222): send the text to every inbound
n8n client whose readyState is OPEN; other clients are skipped. -/
def broadcastToInboundN8n (w : World) (clients : List Nat) (text : String) : List Effect :=
  (clients.filter (fun c => w.readyState c == WS_OPEN)).map
    (fun c => Effect.observerSend c text)

/-! ## Registry state and Twilio-side handlers -/

/-- The mutable routing state: `streamSidToTwilio`, `twilioWsToStreamSid`
(lines 46-47) and the `n8nInboundClients` set (line 48).  Connections are
numeric ids; map keys are the parsed JSON values the code actually uses. -/
structure ServerState where
  streamSidToTwilio : List (Json × Nat)
  twilioWsToStreamSid : List (Nat × Json)
  n8nInboundClients : List Nat

/-- The state before any connection arrives. -/
def emptyBridge : ServerState :=
  { streamSidToTwilio := [], twilioWsToStreamSid := [], n8nInboundClients := [] }

/-- The two `Map.set` calls of the start branch (lines 187-188). -/
def registerPair (b : ServerState) (sid : Json) (ws : Nat) : ServerState :=
  { b with
    streamSidToTwilio := alistSet keyEq b.streamSidToTwilio sid ws,
    twilioWsToStreamSid := alistSet natKeyEq b.twilioWsToStreamSid ws sid }

/-- `detachTwilio` (lines 173-180): look up the sid owned by the connection;
if truthy, delete both directions of the mapping. -/
def detachTwilio (b : ServerState) (ws : Nat) : ServerState :=
  match alistGet natKeyEq b.twilioWsToStreamSid ws with
  | some sid =>
      if jsTruthy sid then
        { b with
          streamSidToTwilio := alistDel keyEq b.streamSidToTwilio sid,
          twilioWsToStreamSid := alistDel natKeyEq b.twilioWsToStreamSid ws }
      else b
  | none => b

/-- `streamSidToTwilio.get(sid)` (line 232); the Session Registry resolve. -/
def resolve (b : ServerState) (sid : Json) : Option Nat :=
  alistGet keyEq b.streamSidToTwilio sid

/-- `twilioWsToStreamSid.get(ws)` (lines 174, 205). -/
def wsResolve (b : ServerState) (ws : Nat) : Option Json :=
  alistGet natKeyEq b.twilioWsToStreamSid ws

/-! ## Envelopes built by `handleTwilioFrame` -/

/-- The start envelope (line 191):
`\x7b source:'twilio', type:'start', streamSid: sid, start: frame.start \x7d`. -/
def twilioStartEnvelope (sid startVal : Json) : Json :=
  buildObj [("source", some (Json.str "twilio")), ("type", some (Json.str "start")),
            ("streamSid", some sid), ("start", some startVal)]

/-- The media envelope (line 199):
`\x7b source:'twilio', type:'media', streamSid: frame.streamSid, media: frame.media \x7d`;
an `undefined` field is dropped by `JSON.stringify`. -/
def twilioMediaEnvelope (frame : Json) : Json :=
  buildObj [("source", some (Json.str "twilio")), ("type", some (Json.str "media")),
            ("streamSid", getField frame "streamSid"), ("media", getField frame "media")]

/-- The stop envelope (lines 206-207):
`\x7b source:'twilio', type:'stop', streamSid: sid \x7d` where
`sid = frame.streamSid || twilioWsToStreamSid.get(ws)`. -/
def twilioStopEnvelope (sidOpt : Option Json) : Json :=
  buildObj [("source", some (Json.str "twilio")), ("type", some (Json.str "stop")),
            ("streamSid", sidOpt)]

/-- The generic envelope for unrecognized events (lines 212-213):
`\x7b source:'twilio', type: event, ...frame \x7d`; the spread may overwrite
the `source`/`type` keys in place. -/
def twilioOtherEnvelope (frame : Json) : Json :=
  buildObj (spreadFields
    [("source", some (Json.str "twilio")), ("type", getField frame "event")] frame)

/-! ## `handleTwilioFrame` (lines 182-214) -/

/-- The shared forward-then-broadcast tail of the media / generic branches:
await `forwardToN8n(payload)` (a rejection aborts the handler), then
`broadcastToInboundN8n(payload)`. -/
def forwardThenBroadcast (w : World) (b : ServerState) (payload : String) :
    List Effect × Option Thrown :=
  match forwardToN8n w payload with
  | (fx, Except.error e) => (fx, some e)
  | (fx, Except.ok _) => (fx ++ broadcastToInboundN8n w b.n8nInboundClients payload, none)

/-- `handleTwilioFrame(ws, frame)`: returns the updated registry state, the
effects in program order, and the exception (if any) escaping the handler.
Member access on a parsed `null` throws a `TypeError` before anything else
runs. -/
def handleTwilioFrame (w : World) (b : ServerState) (ws : Nat) (frame : Json) :
    ServerState × List Effect × Option Thrown :=
  match frame with
  | Json.null => (b, [], some Thrown.typeError)
  | _ =>
    match getField frame "event" with
    | some (Json.str e) =>
        if e = "start" then
          match (getField frame "start").bind (fun st => getField st "streamSid") with
          | some sid =>
              if jsTruthy sid then
                let b1 := registerPair b sid ws
                let st := (getField frame "start").getD Json.null
                match forwardToN8n w (stringify (twilioStartEnvelope sid st)) with
                | (fx, Except.error err) => (b1, fx, some err)
                | (fx, Except.ok _) => (b1, fx, none)
              else (b, [], none)
          | none => (b, [], none)
        else if e = "media" then
          let payload := stringify (twilioMediaEnvelope frame)
          let (fx, err) := forwardThenBroadcast w b payload
          (b, fx, err)
        else if e = "stop" then
          let sidOpt := jsOr (getField frame "streamSid") (wsResolve b ws)
          let payload := stringify (twilioStopEnvelope sidOpt)
          match forwardToN8n w payload with
          | (fx, Except.error err) => (b, fx, some err)
          | (fx, Except.ok _) =>
              (detachTwilio b ws,
               fx ++ broadcastToInboundN8n w b.n8nInboundClients payload, none)
        else
          let payload := stringify (twilioOtherEnvelope frame)
          let (fx, err) := forwardThenBroadcast w b payload
          (b, fx, err)
    | _ =>
        let payload := stringify (twilioOtherEnvelope frame)
        let (fx, err) := forwardThenBroadcast w b payload
        (b, fx, err)

/-! ## `handleN8nInboundMessage` (lines 224-263) -/

/-- The default content-type label applied to backend media lacking one
(line 240). -/
def DEFAULT_CONTENT_TYPE : String := "audio/x-mulaw;rate=8000"

/-- `msg.media.contentType || 'audio/x-mulaw;rate=8000'` (line 240). -/
def inboundContentType (msg : Json) : Json :=
  match (getField msg "media").bind (fun m => getField m "contentType") with
  | some v => if jsTruthy v then v else Json.str DEFAULT_CONTENT_TYPE
  | none => Json.str DEFAULT_CONTENT_TYPE

/-- The backend-to-caller media frame built at lines 236-243. -/
def inboundMediaFrame (msg : Json) (sid p : Json) : Json :=
  Json.obj [("event", Json.str "media"), ("streamSid", sid),
            ("media", Json.obj [("contentType", inboundContentType msg), ("payload", p)])]

/-- `handleN8nInboundMessage(msg)`: resolve the target Twilio connection and
re-encode the control message; unresolved or non-open targets drop the
message with no effect.  Member access on a parsed `null` throws. -/
def handleN8nInboundMessage (w : World) (b : ServerState) (msg : Json) :
    List Effect × Option Thrown :=
  match msg with
  | Json.null => ([], some Thrown.typeError)
  | _ =>
    match getField msg "streamSid" with
    | none => ([], none)
    | some sid =>
      if jsTruthy sid then
        match resolve b sid with
        | none => ([], none)
        | some tws =>
          if w.readyState tws = WS_OPEN then
            match getField msg "type" with
            | some (Json.str t) =>
                if t = "media" then
                  match (getField msg "media").bind (fun m => getField m "payload") with
                  | some p =>
                      if jsTruthy p then
                        ([Effect.callerSend tws (stringify (inboundMediaFrame msg sid p))], none)
                      else ([], none)
                  | none => ([], none)
                else if t = "mark" then
                  match (getField msg "mark").bind (fun m => getField m "name") with
                  | some nm =>
                      if jsTruthy nm then
                        ([Effect.callerSend tws (stringify (Json.obj
                          [("event", Json.str "mark"), ("streamSid", sid),
                           ("mark", Json.obj [("name", nm)])]))], none)
                      else ([], none)
                  | none => ([], none)
                else if t = "clear" then
                  ([Effect.callerSend tws (stringify (Json.obj
                    [("event", Json.str "clear"), ("streamSid", sid)]))], none)
                else if t = "stop" then
                  ([Effect.callerSend tws (stringify (Json.obj
                    [("event", Json.str "stop"), ("streamSid", sid)]))], none)
                else ([], none)
            | _ => ([], none)
          else ([], none)
      else ([], none)

/-! ## The `ws.on message` handler (lines 109-132) -/

/-- Which raw-WS path the connection arrived on (decided once per
connection from `request.url`, lines 105-106). -/
inductive PathKind where
  | twilio
  | n8n
  | other
deriving DecidableEq

/-- The body of the `try` block for one inbound WS text message:
`JSON.parse` then the per-path handler.  The error component is whatever
exception the body would throw (a parse failure or a handler rejection). -/
inductive JsError where
  | parseError
  | thrown (t : Thrown)
deriving DecidableEq

/-- The try-block body of the message handler: parse, then dispatch to the
path handler.  `parsed` is the outcome of `JSON.parse(text)`. -/
def wsMessageBody (w : World) (b : ServerState) (ws : Nat) (k : PathKind)
    (parsed : Except String Json) : ServerState × List Effect × Option JsError :=
  match k with
  | PathKind.twilio =>
      match parsed with
      | Except.error _ => (b, [], some JsError.parseError)
      | Except.ok frame =>
          match handleTwilioFrame w b ws frame with
          | (b1, fx, some t) => (b1, fx, some (JsError.thrown t))
          | (b1, fx, none) => (b1, fx, none)
  | PathKind.n8n =>
      match parsed with
      | Except.error _ => (b, [], some JsError.parseError)
      | Except.ok msg =>
          match handleN8nInboundMessage w b msg with
          | (fx, some t) => (b, fx, some (JsError.thrown t))
          | (fx, none) => (b, fx, none)
  | PathKind.other => (b, [], none)

/-- The outcome of one `ws.on message` invocation as observed from outside:
the new registry state, the effects, whether the connection is still open,
and the exception (if any) escaping the handler into the event loop. -/
structure MsgOutcome where
  state : ServerState
  effects : List Effect
  connOpen : Bool
  propagated : Option JsError

/-- The per-path `logger.warn` tag emitted by the catch block. -/
def catchTag : PathKind → String
  | PathKind.twilio => "Non-JSON or invalid Twilio frame"
  | PathKind.n8n => "Invalid n8n message"
  | PathKind.other => ""

/-- The full message handler: the try body wrapped in the catch block, which
logs the failure and swallows it; the connection is never closed here. -/
def onMessage (w : World) (b : ServerState) (ws : Nat) (k : PathKind)
    (parsed : Except String Json) : MsgOutcome :=
  match wsMessageBody w b ws k parsed with
  | (b1, fx, some _) =>
      { state := b1, effects := fx ++ [Effect.logWarn (catchTag k)],
        connOpen := true, propagated := none }
  | (b1, fx, none) =>
      { state := b1, effects := fx, connOpen := true, propagated := none }

/-- The `ws.on close` handler (lines 134-139): drop an n8n observer from the
set, detach a Twilio connection from the registry. -/
def onClose (b : ServerState) (ws : Nat) (k : PathKind) : ServerState :=
  match k with
  | PathKind.n8n => { b with n8nInboundClients := b.n8nInboundClients.filter (fun c => c ≠ ws) }
  | PathKind.twilio => detachTwilio b ws
  | PathKind.other => b

/-- Observer attachment on connection (line 107): `Set.add`. -/
def onConnect (b : ServerState) (ws : Nat) (k : PathKind) : ServerState :=
  match k with
  | PathKind.n8n =>
      if b.n8nInboundClients.contains ws then b
      else { b with n8nInboundClients := b.n8nInboundClients ++ [ws] }
  | _ => b

/-! ## Reconnection supervisor (`connectOutboundN8n`, lines 52-72) -/

/-- The fixed reconnect delay passed to `setTimeout` (line 68). -/
def RECONNECT_DELAY_MS : Nat := 2000

/-- Lifecycle events of the persistent outbound socket. -/
inductive SupEvent where
  | sockOpened (s : Nat)
  | sockClosed
deriving DecidableEq

/-- One supervisor step.  On `open` the socket (now in the OPEN readyState)
is stored in `outboundN8nWs`; on `close` the reference is discarded and one
reconnect attempt is scheduled after the fixed delay. -/
def supStep (w : World) : SupEvent → World
  | SupEvent.sockOpened s =>
      { w with outboundN8nWs := some s,
               readyState := fun n => if n = s then WS_OPEN else w.readyState n }
  | SupEvent.sockClosed =>
      { w with outboundN8nWs := none,
               reconnectDelays := w.reconnectDelays ++ [RECONNECT_DELAY_MS] }

/-! ## Session Registry operation traces -/

/-- The registry mutations the code performs: registration by a start frame
(lines 184-192; a falsy sid registers nothing) and detachment by connection
close or stop frame (both call `detachTwilio`). -/
inductive RegOp where
  | register (sid : Json) (ws : Nat)
  | detach (ws : Nat)

/-- Apply one registry operation. -/
def applyRegOp (b : ServerState) : RegOp → ServerState
  | RegOp.register sid ws => if jsTruthy sid then registerPair b sid ws else b
  | RegOp.detach ws => detachTwilio b ws

/-- Apply a trace of registry operations from a starting state. -/
def applyRegOps (b : ServerState) (ops : List RegOp) : ServerState :=
  ops.foldl applyRegOp b

/-! ## Effect projections -/

/-- Payloads handed to the delivery channel (persistent send or HTTP post). -/
def deliveryPayloads (fx : List Effect) : List String :=
  fx.filterMap (fun e =>
    match e with
    | Effect.persistentSend _ p => some p
    | Effect.httpPost _ p _ => some p
    | _ => none)

/-- Sends to observer connections, with their targets. -/
def observerSends (fx : List Effect) : List (Nat × String) :=
  fx.filterMap (fun e =>
    match e with
    | Effect.observerSend c p => some (c, p)
    | _ => none)

/-- Writes to caller (Twilio) connections, with their targets. -/
def callerWrites (fx : List Effect) : List (Nat × String) :=
  fx.filterMap (fun e =>
    match e with
    | Effect.callerSend c p => some (c, p)
    | _ => none)

/-- A key occurs in an association list. -/
def hasKey {κ α : Type} (eq : κ → κ → Bool) : List (κ × α) → κ → Bool
  | [], _ => false
  | (k1, _) :: t, k => eq k1 k || hasKey eq t k

/-- Every key occurs at most once. -/
def keysUnique {κ α : Type} (eq : κ → κ → Bool) : List (κ × α) → Bool
  | [] => true
  | (k, _) :: t => (!hasKey eq t k) && keysUnique eq t

/-! ## Key-comparison lemmas -/

theorem keyEq_true_iff (a b : Json) : keyEq a b = true ↔ a = b ∧ isPrim a = true := by
  cases a <;> cases b <;> simp [keyEq, isPrim]

theorem keyEq_eq {a b : Json} (h : keyEq a b = true) : a = b :=
  ((keyEq_true_iff a b).mp h).1

theorem keyEq_refl {a : Json} (h : isPrim a = true) : keyEq a a = true :=
  (keyEq_true_iff a a).mpr ⟨rfl, h⟩

theorem keyEq_symm (a b : Json) : keyEq a b = keyEq b a := by
  rw [Bool.eq_iff_iff, keyEq_true_iff, keyEq_true_iff]
  constructor
  · rintro ⟨rfl, h⟩; exact ⟨rfl, h⟩
  · rintro ⟨rfl, h⟩; exact ⟨rfl, h⟩

theorem keyEq_congr : ∀ (a b : Json), keyEq a b = true → ∀ (c : Json),
    keyEq a c = keyEq b c := by
  intro a b h c
  rw [keyEq_eq h]

theorem natKeyEq_true_iff (a b : Nat) : natKeyEq a b = true ↔ a = b := by
  simp [natKeyEq]

theorem natKeyEq_symm (a b : Nat) : natKeyEq a b = natKeyEq b a := by
  rw [Bool.eq_iff_iff, natKeyEq_true_iff, natKeyEq_true_iff, eq_comm]

theorem natKeyEq_congr : ∀ (a b : Nat), natKeyEq a b = true → ∀ (c : Nat),
    natKeyEq a c = natKeyEq b c := by
  intro a b h c
  rw [(natKeyEq_true_iff a b).mp h]

/-! ## Association-list lemmas (for any key comparison that is symmetric and
substitutive, which both `keyEq` and `natKeyEq` are) -/

theorem alistGet_set {κ α : Type} {eq : κ → κ → Bool}
    (hsymm : ∀ a b, eq a b = eq b a)
    (hcongr : ∀ a b, eq a b = true → ∀ c, eq a c = eq b c)
    (m : List (κ × α)) (k : κ) (v : α) (x : κ) :
    alistGet eq (alistSet eq m k v) x = if eq x k then some v else alistGet eq m x := by
  induction m with
  | nil => simp only [alistSet, alistGet, hsymm k x]
  | cons hd tl ih =>
      obtain ⟨k1, v1⟩ := hd
      by_cases h1 : eq k1 k = true
      · have h2 : eq k1 x = eq x k := by rw [hcongr k1 k h1 x, hsymm k x]
        simp only [alistSet, h1, if_true, alistGet, h2]
        by_cases h4 : eq x k = true
        · simp [h4]
        · simp [h4]
      · simp only [alistSet, h1, if_false, alistGet, ih]
        by_cases h2 : eq k1 x = true
        · have h3 : eq x k = false := by
            rw [← hcongr k1 x h2 k]
            exact Bool.not_eq_true _ |>.mp h1
          simp [h2, h3]
        · simp [h2]

theorem alistGet_del {κ α : Type} {eq : κ → κ → Bool}
    (hsymm : ∀ a b, eq a b = eq b a)
    (hcongr : ∀ a b, eq a b = true → ∀ c, eq a c = eq b c)
    (m : List (κ × α)) (k : κ) (x : κ) :
    alistGet eq (alistDel eq m k) x = if eq x k then none else alistGet eq m x := by
  induction m with
  | nil => simp [alistDel, alistGet]
  | cons hd tl ih =>
      obtain ⟨k1, v1⟩ := hd
      by_cases h1 : eq k1 k = true
      · have h2 : eq k1 x = eq x k := by rw [hcongr k1 k h1 x, hsymm k x]
        simp only [alistDel, h1, if_true, ih, alistGet]
        by_cases h4 : eq x k = true
        · simp [h4]
        · simp [h4, h2]
      · simp only [alistDel, h1, if_false, alistGet, ih]
        by_cases h2 : eq k1 x = true
        · have h3 : eq x k = false := by
            rw [← hcongr k1 x h2 k]
            exact Bool.not_eq_true _ |>.mp h1
          simp [h2, h3]
        · simp [h2]

theorem hasKey_set {κ α : Type} {eq : κ → κ → Bool}
    (hcongr : ∀ a b, eq a b = true → ∀ c, eq a c = eq b c)
    (m : List (κ × α)) (k : κ) (v : α) (x : κ) :
    hasKey eq (alistSet eq m k v) x = (hasKey eq m x || eq k x) := by
  induction m with
  | nil => simp [alistSet, hasKey]
  | cons hd tl ih =>
      obtain ⟨k1, v1⟩ := hd
      by_cases h1 : eq k1 k = true
      · have h2 : eq k1 x = eq k x := hcongr k1 k h1 x
        simp only [alistSet, h1, if_true, hasKey, h2]
        cases h3 : eq k x <;> simp
      · simp only [alistSet, h1, if_false, hasKey, ih]
        cases eq k1 x <;> simp [Bool.or_assoc]

theorem hasKey_of_del {κ α : Type} {eq : κ → κ → Bool}
    {m : List (κ × α)} {k x : κ}
    (h : hasKey eq (alistDel eq m k) x = true) : hasKey eq m x = true := by
  induction m with
  | nil => simp [alistDel, hasKey] at h
  | cons hd tl ih =>
      obtain ⟨k1, v1⟩ := hd
      by_cases h1 : eq k1 k = true
      · simp only [alistDel, h1, if_true] at h
        simp only [hasKey, ih h, Bool.or_true]
      · simp only [alistDel, h1, if_false, hasKey] at h ⊢
        rcases (Bool.or_eq_true _ _).mp h with h2 | h2
        · simp [h2]
        · simp [ih h2]

theorem keysUnique_set {κ α : Type} {eq : κ → κ → Bool}
    (hsymm : ∀ a b, eq a b = eq b a)
    (hcongr : ∀ a b, eq a b = true → ∀ c, eq a c = eq b c)
    {m : List (κ × α)} (hm : keysUnique eq m = true) (k : κ) (v : α) :
    keysUnique eq (alistSet eq m k v) = true := by
  induction m with
  | nil => simp [alistSet, keysUnique, hasKey]
  | cons hd tl ih =>
      obtain ⟨k1, v1⟩ := hd
      simp only [keysUnique, Bool.and_eq_true, Bool.not_eq_true'] at hm
      by_cases h1 : eq k1 k = true
      · simp only [alistSet, h1, if_true, keysUnique, Bool.and_eq_true, Bool.not_eq_true']
        exact hm
      · simp only [alistSet, h1, if_false, keysUnique, Bool.and_eq_true, Bool.not_eq_true']
        refine ⟨?_, ih hm.2⟩
        rw [hasKey_set hcongr tl k v k1, hm.1, Bool.false_or, hsymm k k1]
        exact Bool.not_eq_true _ |>.mp h1

theorem keysUnique_del {κ α : Type} {eq : κ → κ → Bool}
    {m : List (κ × α)} (hm : keysUnique eq m = true) (k : κ) :
    keysUnique eq (alistDel eq m k) = true := by
  induction m with
  | nil => simp [alistDel, keysUnique]
  | cons hd tl ih =>
      obtain ⟨k1, v1⟩ := hd
      simp only [keysUnique, Bool.and_eq_true, Bool.not_eq_true'] at hm
      by_cases h1 : eq k1 k = true
      · simp only [alistDel, h1, if_true]
        exact ih hm.2
      · simp only [alistDel, h1, if_false, keysUnique, Bool.and_eq_true, Bool.not_eq_true']
        refine ⟨?_, ih hm.2⟩
        by_cases h2 : hasKey eq (alistDel eq tl k) k1 = true
        · rw [hasKey_of_del h2] at hm
          exact absurd hm.1 (by simp)
        · exact Bool.not_eq_true _ |>.mp h2

/-! ## Claim C1: delivery channel choice -/

/-- **C1.** For every envelope, `forwardToN8n` attempts exactly one channel,
chosen in fixed order: if the persistent backend socket exists and is open,
the envelope is sent on it and the result is the persistent channel (`'ws'`);
otherwise, if a callback URL is configured, a single bounded-timeout HTTP
POST carrying the envelope is issued and the result is the callback channel
(`'http'`) on success; otherwise the result is `null` (no channel
configured) and no I/O is performed.  At most one network effect is ever
produced, so no dual delivery occurs. -/
theorem forwardToN8n_channel_choice :
    (∀ (w : World) (p : String) (s : Nat),
        w.outboundN8nWs = some s → w.readyState s = WS_OPEN →
        forwardToN8n w p = ([Effect.persistentSend s p], Except.ok (some Channel.ws)))
  ∧ (∀ (w : World) (p : String),
        (∀ s, w.outboundN8nWs = some s → w.readyState s ≠ WS_OPEN) →
        w.webhookUrl ≠ "" →
        forwardToN8n w p = ([Effect.httpPost w.webhookUrl p 10000],
          if w.httpOk then Except.ok (some Channel.http) else Except.error Thrown.httpError))
  ∧ (∀ (w : World) (p : String),
        (∀ s, w.outboundN8nWs = some s → w.readyState s ≠ WS_OPEN) →
        w.webhookUrl = "" →
        forwardToN8n w p = ([], Except.ok none))
  ∧ (∀ (w : World) (p : String), (forwardToN8n w p).1.length ≤ 1) := by
  refine ⟨?_, ?_, ?_, ?_⟩
  · intro w p s h1 h2
    simp [forwardToN8n, h1, h2]
  · intro w p hs hw
    cases hcase : w.outboundN8nWs with
    | none => simp [forwardToN8n, hcase, forwardHttpFallback, hw]
    | some s =>
        have hns := hs s hcase
        simp [forwardToN8n, hcase, hns, forwardHttpFallback, hw]
  · intro w p hs hw
    cases hcase : w.outboundN8nWs with
    | none => simp [forwardToN8n, hcase, forwardHttpFallback, hw]
    | some s =>
        have hns := hs s hcase
        simp [forwardToN8n, hcase, hns, forwardHttpFallback, hw]
  · intro w p
    cases hcase : w.outboundN8nWs <;>
      simp only [forwardToN8n, forwardHttpFallback, hcase] <;>
      split <;> (try split) <;> simp

/-- Witness for C1: the three channel outcomes at concrete worlds. -/
theorem forwardToN8n_channel_choice_witness :
    forwardToN8n ⟨some 4, fun _ => 1, "", true, []⟩ "env" =
      ([Effect.persistentSend 4 "env"], Except.ok (some Channel.ws))
  ∧ forwardToN8n ⟨none, fun _ => 3, "http://n8n.example/hook", true, []⟩ "env" =
      ([Effect.httpPost "http://n8n.example/hook" "env" 10000], Except.ok (some Channel.http))
  ∧ forwardToN8n ⟨none, fun _ => 3, "", true, []⟩ "env" = ([], Except.ok none) := by
  refine ⟨forwardToN8n_channel_choice.1 _ "env" 4 rfl rfl, ?_, ?_⟩
  · have h := forwardToN8n_channel_choice.2.1 ⟨none, fun _ => 3, "http://n8n.example/hook", true, []⟩
      "env" (fun s hs => by cases hs) (by decide)
    simpa using h
  · exact forwardToN8n_channel_choice.2.2.1 _ "env" (fun s hs => by cases hs) rfl

/-! ## Claim C8: reconnection supervisor -/

/-- **C8.** When the persistent backend socket closes, the socket reference
is discarded (so the next `forwardToN8n` falls through to the callback path
if configured, else reports no channel), exactly one reconnection attempt is
scheduled after the fixed 2000 ms delay (every close schedules one, hence
retries are unbounded), and once the socket reopens the next `forwardToN8n`
uses the persistent channel again with no manual reset. -/
theorem supervisor_close_failover_reopen :
    ∀ (w : World) (p : String) (s : Nat),
      (supStep w SupEvent.sockClosed).outboundN8nWs = none
      ∧ (supStep w SupEvent.sockClosed).reconnectDelays =
          w.reconnectDelays ++ [RECONNECT_DELAY_MS]
      ∧ (w.webhookUrl ≠ "" →
           forwardToN8n (supStep w SupEvent.sockClosed) p =
             ([Effect.httpPost w.webhookUrl p 10000],
              if w.httpOk then Except.ok (some Channel.http)
              else Except.error Thrown.httpError))
      ∧ (w.webhookUrl = "" →
           forwardToN8n (supStep w SupEvent.sockClosed) p = ([], Except.ok none))
      ∧ forwardToN8n (supStep (supStep w SupEvent.sockClosed) (SupEvent.sockOpened s)) p =
          ([Effect.persistentSend s p], Except.ok (some Channel.ws)) := by
  intro w p s
  refine ⟨rfl, rfl, ?_, ?_, ?_⟩
  · intro hw
    simp [supStep, forwardToN8n, forwardHttpFallback, hw]
  · intro hw
    simp [supStep, forwardToN8n, forwardHttpFallback, hw]
  · simp [supStep, forwardToN8n, WS_OPEN]

/-- Witness for C8 at a concrete world: close discards the socket and
schedules a 2000 ms retry, delivery falls back to the configured webhook,
and delivery after reopen uses the persistent socket again. -/
theorem supervisor_close_failover_reopen_witness :
    (supStep ⟨some 4, fun _ => 1, "http://n8n.example/hook", true, []⟩
        SupEvent.sockClosed).outboundN8nWs = none
  ∧ (supStep ⟨some 4, fun _ => 1, "http://n8n.example/hook", true, []⟩
        SupEvent.sockClosed).reconnectDelays = [2000]
  ∧ forwardToN8n (supStep ⟨some 4, fun _ => 1, "http://n8n.example/hook", true, []⟩
        SupEvent.sockClosed) "env" =
      ([Effect.httpPost "http://n8n.example/hook" "env" 10000],
       Except.ok (some Channel.http))
  ∧ forwardToN8n (supStep (supStep ⟨some 4, fun _ => 1, "http://n8n.example/hook", true, []⟩
        SupEvent.sockClosed) (SupEvent.sockOpened 9)) "env" =
      ([Effect.persistentSend 9 "env"], Except.ok (some Channel.ws)) := by
  have h := supervisor_close_failover_reopen
    ⟨some 4, fun _ => 1, "http://n8n.example/hook", true, []⟩ "env" 9
  exact ⟨h.1, h.2.1, by simpa using h.2.2.1 (by decide), h.2.2.2.2⟩

/-! ## Claim C5: unresolved control messages are dropped silently -/

/-- **C5.** A backend control message whose session token does not resolve
to a registered caller connection, or resolves to a connection that is not
currently open, produces no write to any caller connection and surfaces no
error to the sender: the handler returns no effects and throws nothing. -/
theorem inbound_unresolved_silent_drop :
    ∀ (w : World) (b : ServerState) (msg sid : Json),
      getField msg "streamSid" = some sid →
      (resolve b sid = none ∨
        ∀ tws, resolve b sid = some tws → w.readyState tws ≠ WS_OPEN) →
      handleN8nInboundMessage w b msg = ([], none) := by
  intro w b msg sid hsid hres
  cases msg with
  | null => simp [getField] at hsid
  | bool bb => simp [getField] at hsid
  | str ss => simp [getField] at hsid
  | num nn => simp [getField] at hsid
  | obj fs =>
      simp only [handleN8nInboundMessage, hsid]
      by_cases ht : jsTruthy sid = true
      · simp only [ht, if_true]
        cases hr : resolve b sid with
        | none => rfl
        | some tws =>
            rcases hres with hres | hres
            · rw [hr] at hres; cases hres
            · have := hres tws hr
              simp [this]
      · simp [ht]

/-- Witness for C5: the spec's mark message with an unknown token, and a
media message whose target connection is closed, both drop silently. -/
theorem inbound_unresolved_silent_drop_witness :
    handleN8nInboundMessage ⟨none, fun _ => 1, "", true, []⟩
      (applyRegOp emptyBridge (RegOp.register (Json.str "S1") 3))
      (Json.obj [("type", Json.str "mark"), ("streamSid", Json.str "UNKNOWN"),
                 ("mark", Json.obj [("name", Json.str "x")])]) = ([], none)
  ∧ handleN8nInboundMessage ⟨none, fun _ => 3, "", true, []⟩
      (applyRegOp emptyBridge (RegOp.register (Json.str "S1") 3))
      (Json.obj [("type", Json.str "media"), ("streamSid", Json.str "S1"),
                 ("media", Json.obj [("payload", Json.str "QUJD")])]) = ([], none) := by
  constructor
  · exact inbound_unresolved_silent_drop _ _ _ (Json.str "UNKNOWN") rfl (Or.inl rfl)
  · exact inbound_unresolved_silent_drop _ _ _ (Json.str "S1") rfl
      (Or.inr (fun tws h => by
        have h3 : tws = 3 := by
          simpa [applyRegOp, registerPair, emptyBridge, resolve, alistSet, alistGet,
            jsTruthy, keyEq] using h.symm
        subst h3
        decide))

/-! ## Claim C4: backend media round trip -/

/-- The control media message of the round-trip property: payload `"QUJD"`,
token `"S1"`, no explicit contentType. -/
def c4ControlMsg : Json :=
  Json.obj [("type", Json.str "media"), ("streamSid", Json.str "S1"),
            ("media", Json.obj [("payload", Json.str "QUJD")])]

/-- The exact serialized frame the caller connection must receive. -/
def c4ExpectedFrame : String :=
  "\x7b\"event\":\"media\",\"streamSid\":\"S1\",\"media\":\x7b\"contentType\":\"audio/x-mulaw;rate=8000\",\"payload\":\"QUJD\"\x7d\x7d"

/-- **C4.** A backend control media message with payload `"QUJD"` and token
`"S1"`, where `"S1"` resolves to an open caller connection, causes exactly
one write to that connection, whose payload is exactly the serialized frame
with the defaulted contentType. -/
theorem inbound_media_round_trip :
    ∀ (w : World) (b : ServerState) (tws : Nat),
      resolve b (Json.str "S1") = some tws →
      w.readyState tws = WS_OPEN →
      handleN8nInboundMessage w b c4ControlMsg =
        ([Effect.callerSend tws c4ExpectedFrame], none) := by
  intro w b tws hres hopen
  have hstep : handleN8nInboundMessage w b c4ControlMsg =
      (match resolve b (Json.str "S1") with
       | none => ([], none)
       | some t =>
           if w.readyState t = WS_OPEN then
             ([Effect.callerSend t c4ExpectedFrame], none)
           else ([], none)) := rfl
  rw [hstep, hres]
  simp [hopen]

/-- Witness for C4: with `"S1"` registered to connection 3 (open), the
control message produces exactly the expected write. -/
theorem inbound_media_round_trip_witness :
    resolve (applyRegOp emptyBridge (RegOp.register (Json.str "S1") 3)) (Json.str "S1") = some 3
  ∧ handleN8nInboundMessage ⟨none, fun _ => 1, "", true, []⟩
      (applyRegOp emptyBridge (RegOp.register (Json.str "S1") 3)) c4ControlMsg =
      ([Effect.callerSend 3 c4ExpectedFrame], none) :=
  ⟨rfl, inbound_media_round_trip ⟨none, fun _ => 1, "", true, []⟩
    (applyRegOp emptyBridge (RegOp.register (Json.str "S1") 3)) 3 rfl rfl⟩

/-! ## Shared concrete fixtures -/

/-- A world whose persistent socket 9 is open and with no webhook. -/
def allOpenW : World := ⟨some 9, fun _ => 1, "", true, []⟩

/-- A world with no persistent socket and a webhook whose POST fails. -/
def hookFailW : World := ⟨none, fun _ => 1, "http://n8n.example/hook", false, []⟩

/-- The spec's start frame for session `"S1"`. -/
def startFrameS1 : Json :=
  Json.obj [("event", Json.str "start"),
            ("start", Json.obj [("streamSid", Json.str "S1")])]

/-- The spec's media frame for session `"S1"` with no contentType. -/
def mediaFrameS1 : Json :=
  Json.obj [("event", Json.str "media"), ("streamSid", Json.str "S1"),
            ("media", Json.obj [("payload", Json.str "AAA=")])]

/-- A registry state with two attached observer connections 7 and 8. -/
def twoObserverState : ServerState :=
  { streamSidToTwilio := [], twilioWsToStreamSid := [], n8nInboundClients := [7, 8] }

/-! ## Claim C9: local error containment in the message handler -/

/-- **C9.** For every inbound WS message, the handler never propagates an
exception into the event loop and never closes the connection: a JSON parse
failure is caught and logged with the frame dropped (state unchanged, the
log line is the only effect), and an error thrown while handling the frame
(including a failed callback delivery) is caught and logged at the point of
detection. -/
theorem message_errors_contained :
    ∀ (w : World) (b : ServerState) (ws : Nat) (k : PathKind)
      (parsed : Except String Json),
      (onMessage w b ws k parsed).propagated = none
      ∧ (onMessage w b ws k parsed).connOpen = true
      ∧ (∀ e, k ≠ PathKind.other → parsed = Except.error e →
          (onMessage w b ws k parsed).state = b
          ∧ (onMessage w b ws k parsed).effects = [Effect.logWarn (catchTag k)])
      ∧ (∀ b1 fx t, wsMessageBody w b ws k parsed = (b1, fx, some t) →
          (onMessage w b ws k parsed).state = b1
          ∧ (onMessage w b ws k parsed).effects = fx ++ [Effect.logWarn (catchTag k)]) := by
  intro w b ws k parsed
  refine ⟨?_, ?_, ?_, ?_⟩
  · rcases hbody : wsMessageBody w b ws k parsed with ⟨b1, fx, err⟩
    cases err <;> simp [onMessage, hbody]
  · rcases hbody : wsMessageBody w b ws k parsed with ⟨b1, fx, err⟩
    cases err <;> simp [onMessage, hbody]
  · intro e hk hparse
    cases k with
    | other => exact absurd rfl hk
    | twilio => subst hparse; exact ⟨rfl, rfl⟩
    | n8n => subst hparse; exact ⟨rfl, rfl⟩
  · intro b1 fx t hbody
    constructor <;> simp [onMessage, hbody]

/-- Witness for C9: a malformed frame on the Twilio path is logged and
dropped with the connection open and nothing propagated, and a media frame
whose webhook delivery rejects has its exception caught and logged after
the attempted POST. -/
theorem message_errors_contained_witness :
    (onMessage allOpenW emptyBridge 5 PathKind.twilio (Except.error "bad")).state = emptyBridge
  ∧ (onMessage allOpenW emptyBridge 5 PathKind.twilio (Except.error "bad")).effects =
      [Effect.logWarn (catchTag PathKind.twilio)]
  ∧ (onMessage allOpenW emptyBridge 5 PathKind.twilio (Except.error "bad")).propagated = none
  ∧ (onMessage allOpenW emptyBridge 5 PathKind.twilio (Except.error "bad")).connOpen = true
  ∧ (onMessage hookFailW twoObserverState 5 PathKind.twilio (Except.ok mediaFrameS1)).effects =
      [Effect.httpPost "http://n8n.example/hook"
         (stringify (twilioMediaEnvelope mediaFrameS1)) 10000,
       Effect.logWarn (catchTag PathKind.twilio)]
  ∧ (onMessage hookFailW twoObserverState 5 PathKind.twilio (Except.ok mediaFrameS1)).propagated =
      none := by
  have h1 := message_errors_contained allOpenW emptyBridge 5 PathKind.twilio (Except.error "bad")
  have h2 := message_errors_contained hookFailW twoObserverState 5 PathKind.twilio
    (Except.ok mediaFrameS1)
  have hp := (h1.2.2.1 "bad" (fun h => by cases h) rfl)
  have hb := h2.2.2.2 twoObserverState
    [Effect.httpPost "http://n8n.example/hook"
       (stringify (twilioMediaEnvelope mediaFrameS1)) 10000]
    (JsError.thrown Thrown.httpError) rfl
  exact ⟨hp.1, hp.2, h1.1, h1.2.1, hb.2, h2.1⟩

/-! ## Projection lemmas for handler effects -/

theorem deliveryPayloads_append (a b : List Effect) :
    deliveryPayloads (a ++ b) = deliveryPayloads a ++ deliveryPayloads b := by
  simp [deliveryPayloads]

theorem observerSends_append (a b : List Effect) :
    observerSends (a ++ b) = observerSends a ++ observerSends b := by
  simp [observerSends]

theorem deliveryPayloads_broadcast (w : World) (cs : List Nat) (t : String) :
    deliveryPayloads (broadcastToInboundN8n w cs t) = [] := by
  simp [deliveryPayloads, broadcastToInboundN8n, List.filterMap_map, Function.comp]

theorem observerSends_broadcast (w : World) (cs : List Nat) (t : String) :
    observerSends (broadcastToInboundN8n w cs t) =
      (cs.filter (fun c => w.readyState c == WS_OPEN)).map (fun c => (c, t)) := by
  simp only [observerSends, broadcastToInboundN8n]
  generalize (cs.filter fun c => w.readyState c == WS_OPEN) = l
  induction l with
  | nil => rfl
  | cons hd tl ih => simp only [List.map_cons, List.filterMap_cons, ih]

/-! ## Branch characterizations of `handleTwilioFrame` -/

theorem handleTwilioFrame_media_eq (w : World) (b : ServerState) (ws : Nat)
    (fs : List (String × Json)) (h : lookupField fs "event" = some (Json.str "media")) :
    handleTwilioFrame w b ws (Json.obj fs) =
      (b, forwardThenBroadcast w b (stringify (twilioMediaEnvelope (Json.obj fs)))) := by
  simp only [handleTwilioFrame, getField, h]
  simp

theorem handleTwilioFrame_stop_eq (w : World) (b : ServerState) (ws : Nat)
    (fs : List (String × Json)) (h : lookupField fs "event" = some (Json.str "stop")) :
    handleTwilioFrame w b ws (Json.obj fs) =
      (match forwardToN8n w (stringify (twilioStopEnvelope
          (jsOr (lookupField fs "streamSid") (wsResolve b ws)))) with
       | (fx, Except.error err) => (b, fx, some err)
       | (fx, Except.ok _) =>
           (detachTwilio b ws,
            fx ++ broadcastToInboundN8n w b.n8nInboundClients
              (stringify (twilioStopEnvelope
                 (jsOr (lookupField fs "streamSid") (wsResolve b ws)))), none)) := by
  simp only [handleTwilioFrame, getField, h]
  simp

theorem handleTwilioFrame_other_eq (w : World) (b : ServerState) (ws : Nat)
    (frame : Json) (hnull : frame ≠ Json.null)
    (h1 : getField frame "event" ≠ some (Json.str "start"))
    (h2 : getField frame "event" ≠ some (Json.str "media"))
    (h3 : getField frame "event" ≠ some (Json.str "stop")) :
    handleTwilioFrame w b ws frame =
      (b, forwardThenBroadcast w b (stringify (twilioOtherEnvelope frame))) := by
  cases frame with
  | null => exact absurd rfl hnull
  | bool bb => rfl
  | str ss => rfl
  | num nn => rfl
  | obj fs =>
      cases hev : lookupField fs "event" with
      | none => simp only [handleTwilioFrame, getField, hev]
      | some v =>
          cases v with
          | str e =>
              have he1 : ¬ e = "start" := by
                intro he; rw [he] at hev; exact h1 (by simp [getField, hev])
              have he2 : ¬ e = "media" := by
                intro he; rw [he] at hev; exact h2 (by simp [getField, hev])
              have he3 : ¬ e = "stop" := by
                intro he; rw [he] at hev; exact h3 (by simp [getField, hev])
              simp only [handleTwilioFrame, getField, hev]
              rw [if_neg he1, if_neg he2, if_neg he3]
          | null => simp only [handleTwilioFrame, getField, hev]
          | bool bb => simp only [handleTwilioFrame, getField, hev]
          | num nn => simp only [handleTwilioFrame, getField, hev]
          | obj gs => simp only [handleTwilioFrame, getField, hev]

theorem handleTwilioFrame_start_eq (w : World) (b : ServerState) (ws : Nat)
    (fs : List (String × Json)) (h : lookupField fs "event" = some (Json.str "start")) :
    handleTwilioFrame w b ws (Json.obj fs) =
      (match (lookupField fs "start").bind (fun st => getField st "streamSid") with
       | some sid =>
           if jsTruthy sid then
             (match forwardToN8n w (stringify (twilioStartEnvelope sid
                 ((lookupField fs "start").getD Json.null))) with
              | (fx, Except.error err) => (registerPair b sid ws, fx, some err)
              | (fx, Except.ok _) => (registerPair b sid ws, fx, none))
           else (b, [], none)
       | none => (b, [], none)) := by
  simp only [handleTwilioFrame, getField, h]
  simp

theorem observerSends_forward (w : World) (payload : String) :
    observerSends (forwardToN8n w payload).1 = [] := by
  cases h : w.outboundN8nWs <;>
    simp only [forwardToN8n, forwardHttpFallback, h] <;>
    split <;> (try split) <;> simp [observerSends]

theorem mem_deliveryPayloads_forward {w : World} {payload p : String}
    (h : p ∈ deliveryPayloads (forwardToN8n w payload).1) : p = payload := by
  cases hw : w.outboundN8nWs <;>
    simp only [forwardToN8n, forwardHttpFallback, hw] at h <;>
    revert h <;> split <;> (try split) <;>
    simp [deliveryPayloads]

/-! ## Claim C2: content-type of caller media envelopes (refuted) -/

/-- **C2, counterexample.** Run the spec's start frame (registering `"S1"`
to connection 5) and then its media frame, which omits contentType.  The
outbound envelope for the media frame carries the same streamSid, but its
media object is the incoming one verbatim and has NO contentType field, and
the serialized payload handed to the delivery channel is exactly the
default-free string below — refuting the claim that a defaulted
`audio/x-mulaw;rate=8000` contentType is carried. -/
theorem caller_media_no_default_counterexample :
    resolve (handleTwilioFrame allOpenW emptyBridge 5 startFrameS1).1 (Json.str "S1") = some 5
  ∧ deliveryPayloads (handleTwilioFrame allOpenW
      (handleTwilioFrame allOpenW emptyBridge 5 startFrameS1).1 5 mediaFrameS1).2.1 =
      [stringify (twilioMediaEnvelope mediaFrameS1)]
  ∧ getField (twilioMediaEnvelope mediaFrameS1) "streamSid" = some (Json.str "S1")
  ∧ getField (twilioMediaEnvelope mediaFrameS1) "media" =
      some (Json.obj [("payload", Json.str "AAA=")])
  ∧ ((getField (twilioMediaEnvelope mediaFrameS1) "media").bind
      (fun m => getField m "contentType")) = none
  ∧ stringify (twilioMediaEnvelope mediaFrameS1) =
      "\x7b\"source\":\"twilio\",\"type\":\"media\",\"streamSid\":\"S1\",\"media\":\x7b\"payload\":\"AAA=\"\x7d\x7d" := by
  exact ⟨rfl, rfl, rfl, rfl, rfl, by decide⟩

/-- **C2 (amended).** For every media frame carrying a streamSid and a media
object, the outbound envelope carries the same streamSid and the media
object verbatim: its contentType is exactly the incoming media object's
contentType (so it is absent when omitted — no default is applied on the
caller-to-backend path), and every payload handed to the delivery channel
for that frame is the serialization of this envelope. -/
theorem caller_media_envelope_verbatim :
    ∀ (frame sidv m : Json),
      getField frame "event" = some (Json.str "media") →
      getField frame "streamSid" = some sidv →
      getField frame "media" = some m →
      getField (twilioMediaEnvelope frame) "streamSid" = some sidv
      ∧ getField (twilioMediaEnvelope frame) "media" = some m
      ∧ ((getField (twilioMediaEnvelope frame) "media").bind
          (fun x => getField x "contentType")) = getField m "contentType"
      ∧ ∀ (w : World) (b : ServerState) (ws : Nat) (p : String),
          p ∈ deliveryPayloads (handleTwilioFrame w b ws frame).2.1 →
          p = stringify (twilioMediaEnvelope frame) := by
  intro frame sidv m h1 h2 h3
  have henv : twilioMediaEnvelope frame =
      Json.obj [("source", Json.str "twilio"), ("type", Json.str "media"),
                ("streamSid", sidv), ("media", m)] := by
    simp [twilioMediaEnvelope, buildObj, h2, h3]
  refine ⟨?_, ?_, ?_, ?_⟩
  · rw [henv]; rfl
  · rw [henv]; rfl
  · rw [henv]; show getField m "contentType" = getField m "contentType"; rfl
  · intro w b ws p hp
    cases frame with
    | null => simp [getField] at h1
    | bool bb => simp [getField] at h1
    | str ss => simp [getField] at h1
    | num nn => simp [getField] at h1
    | obj fs =>
        rw [handleTwilioFrame_media_eq w b ws fs h1] at hp
        rcases hfb : forwardToN8n w (stringify (twilioMediaEnvelope (Json.obj fs)))
          with ⟨fx, r⟩
        simp only [forwardThenBroadcast, hfb] at hp
        cases r with
        | error e =>
            simp only at hp
            exact mem_deliveryPayloads_forward (p := p) (by rw [hfb]; exact hp)
        | ok c =>
            simp only [deliveryPayloads_append, deliveryPayloads_broadcast,
              List.append_nil, List.mem_append] at hp
            exact mem_deliveryPayloads_forward (p := p) (by rw [hfb]; exact hp)

/-- Witness for C2 (amended) at the spec's media frame. -/
theorem caller_media_envelope_verbatim_witness :
    getField (twilioMediaEnvelope mediaFrameS1) "media" =
      some (Json.obj [("payload", Json.str "AAA=")])
  ∧ ((getField (twilioMediaEnvelope mediaFrameS1) "media").bind
      (fun x => getField x "contentType")) =
        getField (Json.obj [("payload", Json.str "AAA=")]) "contentType" := by
  have h := caller_media_envelope_verbatim mediaFrameS1 (Json.str "S1")
    (Json.obj [("payload", Json.str "AAA=")]) rfl rfl rfl
  exact ⟨h.2.1, h.2.2.1⟩

/-! ## Claim C3: fanout of caller frames (refuted as stated) -/

/-- `detachTwilio` never touches the observer set. -/
theorem detachTwilio_clients (b : ServerState) (ws : Nat) :
    (detachTwilio b ws).n8nInboundClients = b.n8nInboundClients := by
  unfold detachTwilio
  split
  · split <;> rfl
  · rfl

/-- **C3, counterexample.** A processed start frame is forwarded to the
delivery channel but replicated to no observer, even with two open observers
attached; and a processed media frame whose callback delivery rejects is
also replicated to no observer.  This refutes "every caller-originated frame
that is processed is replicated to every open observer". -/
theorem fanout_not_every_frame_counterexample :
    (7 ∈ twoObserverState.n8nInboundClients ∧ allOpenW.readyState 7 = WS_OPEN)
  ∧ observerSends (handleTwilioFrame allOpenW twoObserverState 5 startFrameS1).2.1 = []
  ∧ deliveryPayloads (handleTwilioFrame allOpenW twoObserverState 5 startFrameS1).2.1 =
      [stringify (twilioStartEnvelope (Json.str "S1")
         (Json.obj [("streamSid", Json.str "S1")]))]
  ∧ observerSends (handleTwilioFrame hookFailW twoObserverState 5 mediaFrameS1).2.1 = []
  ∧ (handleTwilioFrame hookFailW twoObserverState 5 mediaFrameS1).2.2 =
      some Thrown.httpError :=
  ⟨⟨by decide, rfl⟩, rfl, rfl, rfl, rfl⟩

/-- **C3 (amended).** Every processed caller frame other than a start frame,
whose handling completes without a thrown delivery error, is replicated to
exactly the currently-attached observers whose transport is open (each
receiving one copy of the same payload); non-open observers are skipped but
not removed from the observer set, and no error arises from the skip. -/
theorem fanout_non_start_frames :
    ∀ (w : World) (b : ServerState) (ws : Nat) (frame : Json),
      frame ≠ Json.null →
      getField frame "event" ≠ some (Json.str "start") →
      (handleTwilioFrame w b ws frame).2.2 = none →
      (∃ p, observerSends (handleTwilioFrame w b ws frame).2.1 =
          (b.n8nInboundClients.filter (fun c => w.readyState c == WS_OPEN)).map
            (fun c => (c, p)))
      ∧ (handleTwilioFrame w b ws frame).1.n8nInboundClients = b.n8nInboundClients := by
  intro w b ws frame hnull hstart herr
  have tail : ∀ (payload : String),
      handleTwilioFrame w b ws frame = (b, forwardThenBroadcast w b payload) →
      (∃ p, observerSends (handleTwilioFrame w b ws frame).2.1 =
          (b.n8nInboundClients.filter (fun c => w.readyState c == WS_OPEN)).map
            (fun c => (c, p)))
      ∧ (handleTwilioFrame w b ws frame).1.n8nInboundClients = b.n8nInboundClients := by
    intro payload heq
    rw [heq] at herr ⊢
    rcases hfb : forwardToN8n w payload with ⟨fx, r⟩
    simp only [forwardThenBroadcast, hfb] at herr ⊢
    cases r with
    | error e => simp at herr
    | ok c =>
        have hofx : observerSends fx = [] := by
          have h2 := observerSends_forward w payload
          rw [hfb] at h2
          exact h2
        refine ⟨⟨payload, ?_⟩, by trivial⟩
        simp only [observerSends_append, observerSends_broadcast, hofx, List.nil_append]
  cases frame with
  | null => exact absurd rfl hnull
  | bool bb =>
      refine tail _ (handleTwilioFrame_other_eq w b ws _ hnull hstart ?_ ?_) <;> simp [getField]
  | str ss =>
      refine tail _ (handleTwilioFrame_other_eq w b ws _ hnull hstart ?_ ?_) <;> simp [getField]
  | num nn =>
      refine tail _ (handleTwilioFrame_other_eq w b ws _ hnull hstart ?_ ?_) <;> simp [getField]
  | obj fs =>
      cases hev : lookupField fs "event" with
      | none =>
          refine tail _ (handleTwilioFrame_other_eq w b ws _ hnull hstart ?_ ?_) <;>
            simp [getField, hev]
      | some v =>
          cases v with
          | str e =>
              by_cases hmed : e = "media"
              · subst hmed
                exact tail _ (handleTwilioFrame_media_eq w b ws fs hev)
              · by_cases hstop : e = "stop"
                · subst hstop
                  have hP : ∃ P : String, P = stringify (twilioStopEnvelope
                      (jsOr (lookupField fs "streamSid") (wsResolve b ws))) := ⟨_, rfl⟩
                  obtain ⟨P, hPdef⟩ := hP
                  rw [handleTwilioFrame_stop_eq w b ws fs hev, ← hPdef] at herr ⊢
                  rcases hfb : forwardToN8n w P with ⟨fx, r⟩
                  simp only [hfb] at herr ⊢
                  cases r with
                  | error e2 => simp at herr
                  | ok c =>
                      have hofx : observerSends fx = [] := by
                        have h2 := observerSends_forward w P
                        rw [hfb] at h2
                        exact h2
                      refine ⟨⟨P, ?_⟩, by simpa using detachTwilio_clients b ws⟩
                      simp only [observerSends_append, observerSends_broadcast, hofx,
                        List.nil_append]
                · refine tail _ (handleTwilioFrame_other_eq w b ws _ hnull hstart ?_ ?_) <;>
                    simp [getField, hev, hmed, hstop]
          | null =>
              refine tail _ (handleTwilioFrame_other_eq w b ws _ hnull hstart ?_ ?_) <;>
                simp [getField, hev]
          | bool bb =>
              refine tail _ (handleTwilioFrame_other_eq w b ws _ hnull hstart ?_ ?_) <;>
                simp [getField, hev]
          | num nn =>
              refine tail _ (handleTwilioFrame_other_eq w b ws _ hnull hstart ?_ ?_) <;>
                simp [getField, hev]
          | obj gs =>
              refine tail _ (handleTwilioFrame_other_eq w b ws _ hnull hstart ?_ ?_) <;>
                simp [getField, hev]

/-- Witness for C3 (amended): a media frame with observer 7 open and
observer 8 closed — 7 receives the frame, 8 is skipped but kept attached. -/
theorem fanout_non_start_frames_witness :
    (∃ p, observerSends (handleTwilioFrame
        ⟨some 9, fun n => if n = 8 then 3 else 1, "", true, []⟩
        twoObserverState 5 mediaFrameS1).2.1 = [(7, p)])
  ∧ (handleTwilioFrame ⟨some 9, fun n => if n = 8 then 3 else 1, "", true, []⟩
        twoObserverState 5 mediaFrameS1).1.n8nInboundClients = [7, 8] := by
  have h := fanout_non_start_frames ⟨some 9, fun n => if n = 8 then 3 else 1, "", true, []⟩
    twoObserverState 5 mediaFrameS1 (fun hc => by cases hc)
    (fun hc => by simp [mediaFrameS1, getField, lookupField] at hc) rfl
  obtain ⟨⟨p, hp⟩, hcl⟩ := h
  refine ⟨⟨p, ?_⟩, by simpa using hcl⟩
  rw [hp]
  rfl

/-! ## Claim C6: session registry invariant and last-writer-wins -/

/-- One registry operation preserves key uniqueness of both maps. -/
theorem applyRegOp_keysUnique (b : ServerState) (op : RegOp)
    (h1 : keysUnique keyEq b.streamSidToTwilio = true)
    (h2 : keysUnique natKeyEq b.twilioWsToStreamSid = true) :
    keysUnique keyEq (applyRegOp b op).streamSidToTwilio = true
    ∧ keysUnique natKeyEq (applyRegOp b op).twilioWsToStreamSid = true := by
  cases op with
  | register sid ws =>
      by_cases ht : jsTruthy sid = true
      · simp only [applyRegOp, ht, if_true]
        exact ⟨keysUnique_set keyEq_symm keyEq_congr h1 sid ws,
               keysUnique_set natKeyEq_symm natKeyEq_congr h2 ws sid⟩
      · simp only [applyRegOp, ht, if_false]
        exact ⟨h1, h2⟩
  | detach ws =>
      simp only [applyRegOp]
      unfold detachTwilio
      split
      · split
        · exact ⟨keysUnique_del h1 _, keysUnique_del h2 _⟩
        · exact ⟨h1, h2⟩
      · exact ⟨h1, h2⟩

/-- Key uniqueness holds along any trace of registry operations. -/
theorem applyRegOps_keysUnique (ops : List RegOp) :
    ∀ (b : ServerState),
      keysUnique keyEq b.streamSidToTwilio = true →
      keysUnique natKeyEq b.twilioWsToStreamSid = true →
      keysUnique keyEq (applyRegOps b ops).streamSidToTwilio = true
      ∧ keysUnique natKeyEq (applyRegOps b ops).twilioWsToStreamSid = true := by
  induction ops with
  | nil => exact fun b hb1 hb2 => ⟨hb1, hb2⟩
  | cons op rest ih =>
      intro b hb1 hb2
      have hop := applyRegOp_keysUnique b op hb1 hb2
      exact ih (applyRegOp b op) hop.1 hop.2

/-- **C6.** In every state of the Session Registry reachable by the code's
registry operations, each session token occurs at most once in the
token-to-connection map (so it maps to at most one caller connection); and
registering a token that currently maps to a different open connection
replaces the mapping, so that a subsequent resolve of the token returns the
newly registered connection (last writer wins). -/
theorem registry_at_most_one_last_writer_wins :
    (∀ (ops : List RegOp),
        keysUnique keyEq (applyRegOps emptyBridge ops).streamSidToTwilio = true)
  ∧ (∀ (w : World) (ops : List RegOp) (sid : Json) (c c2 : Nat),
        jsTruthy sid = true → isPrim sid = true →
        resolve (applyRegOps emptyBridge ops) sid = some c2 →
        c2 ≠ c → w.readyState c2 = WS_OPEN →
        resolve (applyRegOp (applyRegOps emptyBridge ops) (RegOp.register sid c)) sid
          = some c) := by
  constructor
  · intro ops
    exact (applyRegOps_keysUnique ops emptyBridge rfl rfl).1
  · intro w ops sid c c2 htr hprim hres hne hopen
    show resolve (applyRegOp _ (RegOp.register sid c)) sid = some c
    simp only [applyRegOp, htr, if_true]
    show alistGet keyEq (alistSet keyEq _ sid c) sid = some c
    rw [alistGet_set keyEq_symm keyEq_congr, if_pos (keyEq_refl hprim)]

/-- Witness for C6: re-registering `"S1"` from connection 1 to connection 2
makes resolve return 2. -/
theorem registry_at_most_one_last_writer_wins_witness :
    keysUnique keyEq
      (applyRegOps emptyBridge [RegOp.register (Json.str "S1") 1]).streamSidToTwilio = true
  ∧ resolve (applyRegOp (applyRegOps emptyBridge [RegOp.register (Json.str "S1") 1])
      (RegOp.register (Json.str "S1") 2)) (Json.str "S1") = some 2 :=
  ⟨registry_at_most_one_last_writer_wins.1 [RegOp.register (Json.str "S1") 1],
   registry_at_most_one_last_writer_wins.2 allOpenW [RegOp.register (Json.str "S1") 1]
     (Json.str "S1") 2 1 rfl rfl rfl (by decide) rfl⟩

/-! ## Registry rewrite lemmas -/

theorem resolve_registerPair (b : ServerState) (sid : Json) (ws : Nat) (t : Json) :
    resolve (registerPair b sid ws) t =
      if keyEq t sid then some ws else resolve b t :=
  alistGet_set keyEq_symm keyEq_congr b.streamSidToTwilio sid ws t

theorem wsResolve_registerPair (b : ServerState) (sid : Json) (ws : Nat) (w2 : Nat) :
    wsResolve (registerPair b sid ws) w2 =
      if natKeyEq w2 ws then some sid else wsResolve b w2 :=
  alistGet_set natKeyEq_symm natKeyEq_congr b.twilioWsToStreamSid ws sid w2

theorem resolve_detachTwilio (b : ServerState) (ws : Nat) (t : Json)
    (h : ∀ sid, wsResolve b ws = some sid → keyEq t sid = false) :
    resolve (detachTwilio b ws) t = resolve b t := by
  unfold detachTwilio
  cases hres : alistGet natKeyEq b.twilioWsToStreamSid ws with
  | none => rfl
  | some sid =>
      have hk := h sid hres
      by_cases ht : jsTruthy sid = true
      · simp only [ht, if_true]
        show alistGet keyEq (alistDel keyEq b.streamSidToTwilio sid) t = _
        rw [alistGet_del keyEq_symm keyEq_congr, if_neg (by simp [hk])]
        rfl
      · simp [ht]

theorem wsResolve_detachTwilio_or (b : ServerState) (ws w2 : Nat) :
    wsResolve (detachTwilio b ws) w2 = wsResolve b w2
    ∨ wsResolve (detachTwilio b ws) w2 = none := by
  unfold detachTwilio
  cases hres : alistGet natKeyEq b.twilioWsToStreamSid ws with
  | none => exact Or.inl rfl
  | some sid =>
      by_cases ht : jsTruthy sid = true
      · simp only [ht, if_true]
        by_cases hk : natKeyEq w2 ws = true
        · refine Or.inr ?_
          show alistGet natKeyEq (alistDel natKeyEq b.twilioWsToStreamSid ws) w2 = none
          rw [alistGet_del natKeyEq_symm natKeyEq_congr, if_pos hk]
        · refine Or.inl ?_
          show alistGet natKeyEq (alistDel natKeyEq b.twilioWsToStreamSid ws) w2 =
            wsResolve b w2
          rw [alistGet_del natKeyEq_symm natKeyEq_congr, if_neg hk]
          rfl
      · simp [ht]

theorem wsResolve_detachTwilio_ne (b : ServerState) (ws w2 : Nat)
    (h : natKeyEq w2 ws = false) :
    wsResolve (detachTwilio b ws) w2 = wsResolve b w2 := by
  unfold detachTwilio
  cases hres : alistGet natKeyEq b.twilioWsToStreamSid ws with
  | none => rfl
  | some sid =>
      by_cases ht : jsTruthy sid = true
      · simp only [ht, if_true]
        show alistGet natKeyEq (alistDel natKeyEq b.twilioWsToStreamSid ws) w2 = _
        rw [alistGet_del natKeyEq_symm natKeyEq_congr, if_neg (by simp [h])]
        rfl
      · simp [ht]

/-! ## Claim C7: resolve lifetime of a registration -/

/-- The operation registers (a key matching) token `t`. -/
def opRegistersTok : RegOp → Json → Bool
  | RegOp.register s _, t => keyEq s t
  | RegOp.detach _, _ => false

/-- The operation mentions connection `c`. -/
def opUsesConn : RegOp → Nat → Bool
  | RegOp.register _ w, c => natKeyEq w c
  | RegOp.detach w, c => natKeyEq w c

/-- The invariant maintained between `register(T, C)` and the first event
that removes the mapping: `T` resolves to `C`, `C` owns `T`, and no other
connection owns a key matching `T`. -/
def RegInv (T : Json) (C : Nat) (b : ServerState) : Prop :=
  resolve b T = some C ∧ wsResolve b C = some T ∧
  ∀ w2 s, w2 ≠ C → wsResolve b w2 = some s → keyEq s T = false

/-- Traces that never register a key matching `T` leave every connection
owning only keys that do not match `T`. -/
theorem wsClean_steps (T : Json) :
    ∀ (ops : List RegOp) (b : ServerState),
      (∀ w2 s, wsResolve b w2 = some s → keyEq s T = false) →
      (∀ op ∈ ops, opRegistersTok op T = false) →
      ∀ w2 s, wsResolve (applyRegOps b ops) w2 = some s → keyEq s T = false := by
  intro ops
  induction ops with
  | nil => exact fun b hb _ => hb
  | cons op rest ih =>
      intro b hb hops
      refine ih (applyRegOp b op) ?_ (fun op2 h2 => hops op2 (List.mem_cons_of_mem op h2))
      intro w2 s hw2
      have hop : opRegistersTok op T = false := hops op (List.mem_cons_self op rest)
      cases op with
      | register s2 w3 =>
          have hkeq : keyEq s2 T = false := by simpa [opRegistersTok] using hop
          by_cases ht : jsTruthy s2 = true
          · simp only [applyRegOp, ht, if_true] at hw2
            rw [wsResolve_registerPair] at hw2
            by_cases hk : natKeyEq w2 w3 = true
            · rw [if_pos hk] at hw2
              cases hw2
              exact hkeq
            · rw [if_neg hk] at hw2
              exact hb w2 s hw2
          · simp only [applyRegOp, ht, if_false] at hw2
            exact hb w2 s hw2
      | detach w3 =>
          simp only [applyRegOp] at hw2
          rcases wsResolve_detachTwilio_or b w3 w2 with heq | heq
          · rw [heq] at hw2
            exact hb w2 s hw2
          · rw [heq] at hw2
            cases hw2

/-- `RegInv` is preserved by any operation that neither registers a key
matching `T` nor mentions connection `C`. -/
theorem regInv_step (T : Json) (C : Nat) (b : ServerState) (op : RegOp)
    (hinv : RegInv T C b)
    (h1 : opRegistersTok op T = false)
    (h2 : opUsesConn op C = false) :
    RegInv T C (applyRegOp b op) := by
  obtain ⟨hres, hws, hclean⟩ := hinv
  cases op with
  | register s2 w3 =>
      have hkeq : keyEq s2 T = false := by simpa [opRegistersTok] using h1
      have hwC : natKeyEq w3 C = false := by simpa [opUsesConn] using h2
      by_cases ht : jsTruthy s2 = true
      · simp only [applyRegOp, ht, if_true]
        refine ⟨?_, ?_, ?_⟩
        · rw [resolve_registerPair, if_neg (by rw [keyEq_symm]; simp [hkeq])]
          exact hres
        · rw [wsResolve_registerPair, if_neg (by rw [natKeyEq_symm]; simp [hwC])]
          exact hws
        · intro w2 s hw2 hget
          rw [wsResolve_registerPair] at hget
          by_cases hk : natKeyEq w2 w3 = true
          · rw [if_pos hk] at hget
            cases hget
            exact hkeq
          · rw [if_neg hk] at hget
            exact hclean w2 s hw2 hget
      · simp only [applyRegOp, ht, if_false]
        exact ⟨hres, hws, hclean⟩
  | detach w3 =>
      have hwC : natKeyEq w3 C = false := by simpa [opUsesConn] using h2
      have hne : w3 ≠ C := by
        intro he
        rw [he] at hwC
        simp [natKeyEq] at hwC
      simp only [applyRegOp]
      refine ⟨?_, ?_, ?_⟩
      · rw [resolve_detachTwilio b w3 T
          (fun sid hsid => by rw [keyEq_symm]; exact hclean w3 sid hne hsid)]
        exact hres
      · rw [wsResolve_detachTwilio_ne b w3 C (by rw [natKeyEq_symm]; exact hwC)]
        exact hws
      · intro w2 s hw2 hget
        rcases wsResolve_detachTwilio_or b w3 w2 with heq | heq
        · rw [heq] at hget
          exact hclean w2 s hw2 hget
        · rw [heq] at hget
          cases hget

/-- `RegInv` is preserved along such a trace. -/
theorem regInv_steps (T : Json) (C : Nat) :
    ∀ (post : List RegOp) (b : ServerState), RegInv T C b →
      (∀ op ∈ post, opRegistersTok op T = false ∧ opUsesConn op C = false) →
      RegInv T C (applyRegOps b post) := by
  intro post
  induction post with
  | nil => exact fun b hb _ => hb
  | cons op rest ih =>
      intro b hb hops
      have hop := hops op (List.mem_cons_self op rest)
      exact ih (applyRegOp b op)
        (regInv_step T C b op hb hop.1 hop.2)
        (fun op2 h2 => hops op2 (List.mem_cons_of_mem op h2))

/-- `RegInv` is established by `register(T, C)` after any trace that never
registered a key matching `T`. -/
theorem regInv_init (T : Json) (C : Nat) (pre : List RegOp)
    (htr : jsTruthy T = true) (hprim : isPrim T = true)
    (hpre : ∀ op ∈ pre, opRegistersTok op T = false) :
    RegInv T C (applyRegOp (applyRegOps emptyBridge pre) (RegOp.register T C)) := by
  have hclean0 : ∀ w2 s, wsResolve (applyRegOps emptyBridge pre) w2 = some s →
      keyEq s T = false :=
    wsClean_steps T pre emptyBridge
      (fun w2 s h => by simp [wsResolve, emptyBridge, alistGet] at h) hpre
  simp only [applyRegOp, htr, if_true]
  refine ⟨?_, ?_, ?_⟩
  · rw [resolve_registerPair, if_pos (keyEq_refl hprim)]
  · rw [wsResolve_registerPair, if_pos (by simp [natKeyEq])]
  · intro w2 s hw2 hget
    rw [wsResolve_registerPair, if_neg (by simp [natKeyEq, hw2])] at hget
    exact hclean0 w2 s hget

/-- From a state satisfying `RegInv`, detaching `C` (connection close or
stop frame) removes the mapping: `T` no longer resolves. -/
theorem regInv_final_detach (T : Json) (C : Nat) (b : ServerState)
    (htr : jsTruthy T = true) (hprim : isPrim T = true)
    (hinv : RegInv T C b) : resolve (detachTwilio b C) T = none := by
  obtain ⟨hres, hws, _⟩ := hinv
  unfold detachTwilio
  rw [show alistGet natKeyEq b.twilioWsToStreamSid C = some T from hws]
  simp only [htr, if_true]
  show alistGet keyEq (alistDel keyEq b.streamSidToTwilio T) T = none
  rw [alistGet_del keyEq_symm keyEq_congr, if_pos (keyEq_refl hprim)]

/-- **C7, counterexample.** The claim as stated fails on the code in two
ways.  First, after `register("S1", 1)`, a later `register("S1", 2)` makes
`resolve("S1")` return connection 2 although no unregister was invoked for
the token or for connection 1 and connection 1 did not close.  Second, after
`register("S1", 1)` and a re-registration of connection 1 to `"S2"`, the
close of connection 1 leaves `resolve("S1")` returning the closed
connection 1 instead of absent. -/
theorem resolve_lifetime_counterexample :
    resolve (applyRegOps emptyBridge
        [RegOp.register (Json.str "S1") 1, RegOp.register (Json.str "S1") 2])
      (Json.str "S1") = some 2
  ∧ some (2 : Nat) ≠ some 1
  ∧ resolve (applyRegOps emptyBridge
        [RegOp.register (Json.str "S1") 1, RegOp.register (Json.str "S2") 1,
         RegOp.detach 1])
      (Json.str "S1") = some 1 :=
  ⟨rfl, by decide, rfl⟩

/-- **C7 (amended).** For a primitive (string-like) truthy token `T` never
registered before, `resolve(T)` returns `C` after `register(T, C)` and
continues to do so as long as no later operation re-registers `T` or touches
connection `C`; and after the first detach of `C` (connection close or stop
frame, the code's unregister), `resolve(T)` returns absent. -/
theorem resolve_lifetime_amended :
    ∀ (T : Json) (C : Nat) (pre post : List RegOp),
      jsTruthy T = true → isPrim T = true →
      (∀ op ∈ pre, opRegistersTok op T = false) →
      (∀ op ∈ post, opRegistersTok op T = false ∧ opUsesConn op C = false) →
      resolve (applyRegOps emptyBridge (pre ++ RegOp.register T C :: post)) T = some C
      ∧ resolve (applyRegOps emptyBridge
          (pre ++ RegOp.register T C :: (post ++ [RegOp.detach C]))) T = none := by
  intro T C pre post htr hprim hpre hpost
  have hinit := regInv_init T C pre htr hprim hpre
  have hinv := regInv_steps T C post _ hinit hpost
  constructor
  · have hsplit : applyRegOps emptyBridge (pre ++ RegOp.register T C :: post) =
        applyRegOps (applyRegOp (applyRegOps emptyBridge pre) (RegOp.register T C)) post := by
      simp [applyRegOps, List.foldl_append]
    rw [hsplit]
    exact hinv.1
  · have hsplit : applyRegOps emptyBridge
          (pre ++ RegOp.register T C :: (post ++ [RegOp.detach C])) =
        detachTwilio (applyRegOps (applyRegOp (applyRegOps emptyBridge pre)
          (RegOp.register T C)) post) C := by
      simp [applyRegOps, List.foldl_append]
      rfl
    rw [hsplit]
    exact regInv_final_detach T C _ htr hprim hinv

/-- Witness for C7 (amended): `"S1"` registered to connection 3, with an
unrelated session `"S2"` on connection 7 started and closed afterwards;
`resolve("S1")` stays 3 and becomes absent after connection 3 detaches. -/
theorem resolve_lifetime_amended_witness :
    resolve (applyRegOps emptyBridge ([] ++ RegOp.register (Json.str "S1") 3 ::
        [RegOp.register (Json.str "S2") 7, RegOp.detach 7])) (Json.str "S1") = some 3
  ∧ resolve (applyRegOps emptyBridge ([] ++ RegOp.register (Json.str "S1") 3 ::
        ([RegOp.register (Json.str "S2") 7, RegOp.detach 7] ++ [RegOp.detach 3])))
      (Json.str "S1") = none :=
  resolve_lifetime_amended (Json.str "S1") 3 []
    [RegOp.register (Json.str "S2") 7, RegOp.detach 7] rfl rfl
    (fun op h => absurd h (List.not_mem_nil op))
    (List.forall_mem_cons.mpr ⟨⟨by decide, by decide⟩,
      List.forall_mem_cons.mpr ⟨⟨by decide, by decide⟩,
        fun op h => absurd h (List.not_mem_nil op)⟩⟩)

/-! ## Claim C10: mutual inverse of the two registry maps -/

/-- The two registry maps are mutually inverse. -/
def MutualInv (b : ServerState) : Prop :=
  ∀ s w, resolve b s = some w ↔ wsResolve b w = some s

/-- States reachable from the empty registry by the code's registry
operations when every registration is fresh: a truthy primitive token not
currently registered, on a connection not currently registered.  Detachment
(connection close or stop frame) is unrestricted. -/
inductive CleanReach : ServerState → Prop where
  | empty : CleanReach emptyBridge
  | reg (b : ServerState) (sid : Json) (ws : Nat) : CleanReach b →
      jsTruthy sid = true → isPrim sid = true →
      resolve b sid = none → wsResolve b ws = none →
      CleanReach (registerPair b sid ws)
  | det (b : ServerState) (ws : Nat) : CleanReach b → CleanReach (detachTwilio b ws)

/-- Along clean traces the maps stay mutually inverse and every stored token
is primitive. -/
theorem cleanReach_inverse :
    ∀ (b : ServerState), CleanReach b →
      MutualInv b ∧ (∀ w s, wsResolve b w = some s → isPrim s = true) := by
  intro b0 hr
  induction hr with
  | empty =>
      constructor
      · intro s w
        simp [resolve, wsResolve, emptyBridge, alistGet]
      · intro w s hget
        simp [wsResolve, emptyBridge, alistGet] at hget
  | reg b sid ws hr htr hprim hres hws ih =>
      obtain ⟨ihm, ihp⟩ := ih
      constructor
      · intro s w
        rw [resolve_registerPair, wsResolve_registerPair]
        by_cases hks : keyEq s sid = true
        · have hseq : s = sid := keyEq_eq hks
          subst hseq
          by_cases hkw : natKeyEq w ws = true
          · have hweq : w = ws := (natKeyEq_true_iff w ws).mp hkw
            subst hweq
            simp [hks, hkw]
          · rw [if_pos hks, if_neg hkw]
            constructor
            · intro hl
              have hweq : ws = w := Option.some.inj hl
              exact absurd ((natKeyEq_true_iff w ws).mpr hweq.symm) hkw
            · intro hr2
              have h4 := (ihm s w).mpr hr2
              rw [hres] at h4
              cases h4
        · by_cases hkw : natKeyEq w ws = true
          · have hweq : w = ws := (natKeyEq_true_iff w ws).mp hkw
            subst hweq
            rw [if_neg hks, if_pos hkw]
            constructor
            · intro hl
              have h4 := (ihm s w).mp hl
              rw [hws] at h4
              cases h4
            · intro hr2
              have hseq : sid = s := Option.some.inj hr2
              subst hseq
              exact absurd (keyEq_refl hprim) hks
          · rw [if_neg hks, if_neg hkw]
            exact ihm s w
      · intro w2 s2 hget
        rw [wsResolve_registerPair] at hget
        by_cases hk : natKeyEq w2 ws = true
        · rw [if_pos hk] at hget
          cases hget
          exact hprim
        · rw [if_neg hk] at hget
          exact ihp w2 s2 hget
  | det b ws hr ih =>
      obtain ⟨ihm, ihp⟩ := ih
      refine ⟨?_, ?_⟩
      · intro s w
        cases hd : alistGet natKeyEq b.twilioWsToStreamSid ws with
        | none =>
            have hb : detachTwilio b ws = b := by
              unfold detachTwilio
              rw [hd]
            rw [hb]
            exact ihm s w
        | some sid =>
            have hprimSid : isPrim sid = true := ihp ws sid hd
            by_cases ht : jsTruthy sid = true
            · have hres2 : resolve (detachTwilio b ws) s =
                  if keyEq s sid then none else resolve b s := by
                unfold detachTwilio
                rw [hd]
                simp only [ht, if_true]
                exact alistGet_del keyEq_symm keyEq_congr b.streamSidToTwilio sid s
              have hws2 : wsResolve (detachTwilio b ws) w =
                  if natKeyEq w ws then none else wsResolve b w := by
                unfold detachTwilio
                rw [hd]
                simp only [ht, if_true]
                exact alistGet_del natKeyEq_symm natKeyEq_congr b.twilioWsToStreamSid ws w
              rw [hres2, hws2]
              by_cases hks : keyEq s sid = true
              · have hseq : s = sid := keyEq_eq hks
                subst hseq
                rw [if_pos hks]
                by_cases hkw : natKeyEq w ws = true
                · rw [if_pos hkw]
                  simp
                · rw [if_neg hkw]
                  constructor
                  · intro hl
                    cases hl
                  · intro hr2
                    have h4 := (ihm s w).mpr hr2
                    have h5 := (ihm s ws).mpr hd
                    have h6 : w = ws := Option.some.inj (h4.symm.trans h5)
                    exact absurd ((natKeyEq_true_iff w ws).mpr h6) hkw
              · rw [if_neg hks]
                by_cases hkw : natKeyEq w ws = true
                · have hweq : w = ws := (natKeyEq_true_iff w ws).mp hkw
                  subst hweq
                  rw [if_pos hkw]
                  constructor
                  · intro hl
                    have h4 := (ihm s w).mp hl
                    have h5 : some sid = some s := by
                      rw [← hd]
                      exact h4
                    have hseq : sid = s := Option.some.inj h5
                    subst hseq
                    exact absurd (keyEq_refl hprimSid) hks
                  · intro hr2
                    cases hr2
                · rw [if_neg hkw]
                  exact ihm s w
            · have hb : detachTwilio b ws = b := by
                unfold detachTwilio
                rw [hd]
                simp [ht]
              rw [hb]
              exact ihm s w
      · intro w2 s2 hget
        rcases wsResolve_detachTwilio_or b ws w2 with heq | heq
        · rw [heq] at hget
          exact ihp w2 s2 hget
        · rw [heq] at hget
          cases hget

/-- **C10, counterexample.** After the reachable trace
`register("S1", 1); register("S1", 2)` (two start frames for the same token
from different connections, both permitted by the code), the
connection-to-token map still sends connection 1 to `"S1"` while the
token-to-connection map sends `"S1"` to connection 2 — the two maps are not
mutually inverse, so registration does not preserve the claimed invariant. -/
theorem registry_mutual_inverse_counterexample :
    wsResolve (applyRegOps emptyBridge
        [RegOp.register (Json.str "S1") 1, RegOp.register (Json.str "S1") 2]) 1 =
      some (Json.str "S1")
  ∧ resolve (applyRegOps emptyBridge
        [RegOp.register (Json.str "S1") 1, RegOp.register (Json.str "S1") 2])
      (Json.str "S1") = some 2
  ∧ ¬ MutualInv (applyRegOps emptyBridge
        [RegOp.register (Json.str "S1") 1, RegOp.register (Json.str "S1") 2]) := by
  refine ⟨rfl, rfl, ?_⟩
  intro h
  have h2 := (h (Json.str "S1") 1).mpr rfl
  have h3 : some (2 : Nat) = some 1 := h2
  cases h3

/-- **C10 (amended).** The two registry maps are mutually inverse in every
state reachable from the empty registry when every start-frame registration
is fresh — a truthy primitive token not currently registered, on a
connection not currently registered; the invariant is then preserved by
registration, by detachment on connection close, and by detachment on a stop
frame (re-registering a live token or connection breaks it, as the
counterexample shows). -/
theorem registry_mutual_inverse_amended :
    ∀ (b : ServerState), CleanReach b → MutualInv b :=
  fun b h => (cleanReach_inverse b h).1

/-- Witness for C10 (amended): the clean trace
`register("S1",1); register("S2",2); detach(1)`. -/
theorem registry_mutual_inverse_amended_witness :
    MutualInv (detachTwilio
      (registerPair (registerPair emptyBridge (Json.str "S1") 1) (Json.str "S2") 2) 1)
  ∧ resolve (detachTwilio
      (registerPair (registerPair emptyBridge (Json.str "S1") 1) (Json.str "S2") 2) 1)
      (Json.str "S2") = some 2 :=
  ⟨registry_mutual_inverse_amended _
    (CleanReach.det _ 1
      (CleanReach.reg _ (Json.str "S2") 2
        (CleanReach.reg _ (Json.str "S1") 1 CleanReach.empty rfl rfl rfl rfl)
        rfl rfl rfl rfl)),
   rfl⟩

end Bridge

